import Mathlib

/-!
Shallow embedding of the request-routing and middleware-composition core of
the yahf HTTP handler-binding library.

The embedding follows the Rust sources:
  * `src/error.rs`          — the `Error` value and `From<Error> for Response<String>`
  * `src/middleware.rs`     — `MiddlewareFactory` (`new`, `pre`, `pre_error`,
                              `after`, `after_error`, `build`)
  * `src/handler.rs`        — `BoxedHandler`, the blanket `Runner` impl,
                              `encapsulate_runner` / `call_runner`, the JSON codec glue
  * `src/handle_selector.rs`— the per-method path trie (`Node`, `insert`, `get`,
                              `extend`/`rec_extend`, `apply`/`apply_middlewares`)
  * `src/router.rs`         — `Router` (nine tries, `method`, per-method
                              registration, `router` merge, `find_route`)
  * `src/lib.rs`            — the older `Server` variant with four tries

Side effects of middlewares and handlers (prints, counters) are modelled by an
explicit effect trace: every step returns the list of effect labels it emitted,
and sequential composition concatenates traces in execution order.  Async
execution is sequential per request in the sources, so the `async`/`await`
structure erases to plain function composition.
-/

/-- Models `Error` from `src/error.rs`: an immutable (body, status-code) pair.
`code` is the `u16` status; no arithmetic overflows it in the modelled code. -/
structure YError where
  body : String
  code : Nat
deriving Repr, DecidableEq

/-- Models `Request<String>` from `src/request.rs`.  The modelled core only
reads and rewrites the body; method, uri and headers are carried opaquely by
the `http` crate and never inspected by the functions embedded here. -/
structure YRequest where
  body : String
deriving Repr, DecidableEq

/-- Models `Response<String>` from `src/response.rs`: an `http::Response`
carrying a status code and a string body.  `Response::new` uses the `http`
default status 200. -/
structure YResponse where
  status : Nat
  body : String
deriving Repr, DecidableEq

/-- Models `Response::new` (status defaults to 200). -/
def YResponse.new (body : String) : YResponse := ⟨200, body⟩

/-- Models `InternalResult<T> = Result<T, Error>` from `src/result.rs`. -/
abbrev InternalResult (α : Type) := Except YError α

/-- Effect trace: the ordered list of observable side effects (labels) emitted
while processing one request. -/
abbrev Trace := List String

/-- Body text produced by the `http` crate's `err.to_string()` when
`Response::builder().status(code)` is fed a code outside 100..=999
(`From<Error> for Response<String>`, src/error.rs lines 34-42).  Its exact
content is irrelevant to every theorem below. -/
def invalidStatusFallbackBody : String := "invalid status code"

/-- Models `From<Error> for Response<String>` (src/error.rs lines 29-45):
`Response::builder().status(val.code).body(val.body)` succeeds exactly when
the code is a valid HTTP status (the `http` crate accepts 100..=999); on
failure the fallback builds a 500 response whose body is the builder error
message. -/
def YError.intoResponse (e : YError) : YResponse :=
  if 100 ≤ e.code ∧ e.code < 1000 then ⟨e.code, e.body⟩
  else ⟨500, invalidStatusFallbackBody⟩

/-- A pre middleware step (src/middleware.rs `PreMiddleware`): an effectful
function from a request to a fallible request.  The Rust step returns a value
convertible `Into<InternalResult<Request<String>>>`; the trace component
records the effects the step emitted. -/
abbrev PreStep := YRequest → Trace × InternalResult YRequest

/-- An after middleware step (src/middleware.rs `AfterMiddleware`). -/
abbrev AfterStep := YResponse → Trace × InternalResult YResponse

/-- A pre-error middleware step (src/middleware.rs `PreErrorMiddleware`):
receives the already-fallible upstream result. -/
abbrev PreErrorStep := InternalResult YRequest → Trace × InternalResult YRequest

/-- An after-error middleware step (src/middleware.rs `AfterErrorMiddleware`). -/
abbrev AfterErrorStep := InternalResult YResponse → Trace × InternalResult YResponse

/-- A runner in the sense of `Runner::call_runner` (src/handler.rs lines
153-180): from a request to a fallible response, with an effect trace. -/
abbrev RunnerT := YRequest → Trace × InternalResult YResponse

/-- A `BoxedHandler` (src/handler.rs lines 16-18): a boxed closure from a
request to a plain (infallible) response, with an effect trace. -/
abbrev Handler := YRequest → Trace × YResponse

/-- Models `MiddlewareFactory` (src/middleware.rs lines 99-103): one combined
pre function and one combined after function. -/
structure MiddlewareFactory where
  pre : PreStep
  after : AfterStep

namespace MiddlewareFactory

/-- Models `MiddlewareFactory::new` (src/middleware.rs lines 105-125): the
unit pre/after middlewares return their argument unchanged (converted to `Ok`
by the `Into` instance) and emit no effects. -/
def new : MiddlewareFactory :=
  { pre := fun req => ([], .ok req), after := fun res => ([], .ok res) }

/-- Models `MiddlewareFactory::pre` (src/middleware.rs lines 136-160): the new
combined pre runs the previous combined pre; on `Ok` it feeds the unwrapped
request to the appended step, on `Err` it passes the error through without
calling the appended step. -/
def addPre (f : MiddlewareFactory) (step : PreStep) : MiddlewareFactory :=
  { f with
    pre := fun req =>
      let (t1, r1) := f.pre req
      match r1 with
      | .ok q => let (t2, r2) := step q; (t1 ++ t2, r2)
      | .error e => (t1, .error e) }

/-- Models `MiddlewareFactory::pre_error` (src/middleware.rs lines 162-184):
the appended step receives the previous combined pre's fallible result
directly, so it can recover an error. -/
def addPreError (f : MiddlewareFactory) (step : PreErrorStep) : MiddlewareFactory :=
  { f with
    pre := fun req =>
      let (t1, r1) := f.pre req
      let (t2, r2) := step r1
      (t1 ++ t2, r2) }

/-- Models `MiddlewareFactory::after` (src/middleware.rs lines 186-209):
symmetric to `addPre`, over responses. -/
def addAfter (f : MiddlewareFactory) (step : AfterStep) : MiddlewareFactory :=
  { f with
    after := fun res =>
      let (t1, r1) := f.after res
      match r1 with
      | .ok q => let (t2, r2) := step q; (t1 ++ t2, r2)
      | .error e => (t1, .error e) }

/-- Models `MiddlewareFactory::after_error` (src/middleware.rs lines 211-234):
the appended step receives the previous combined after's fallible result. -/
def addAfterError (f : MiddlewareFactory) (step : AfterErrorStep) : MiddlewareFactory :=
  { f with
    after := fun res =>
      let (t1, r1) := f.after res
      let (t2, r2) := step r1
      (t1 ++ t2, r2) }

/-- Models `MiddlewareFactory::build` (src/middleware.rs lines 236-258).  The
built closure runs the combined pre; the `?` on its result short-circuits the
whole async block on `Err` (skipping both the runner and the combined after);
the `?` on the runner's result likewise skips the combined after; finally
`map_ok_or_else(|e| e.into(), |ok| ok)` renders any escaped `Error` into a
plain response via `From<Error> for Response<String>`.  The combined after is
applied only on the all-success path. -/
def build (f : MiddlewareFactory) (runner : RunnerT) : Handler :=
  fun req =>
    let (t1, r1) := f.pre req
    match r1 with
    | .error e => (t1, e.intoResponse)
    | .ok q =>
      let (t2, r2) := runner q
      match r2 with
      | .error e => (t1 ++ t2, e.intoResponse)
      | .ok resp =>
        let (t3, r3) := f.after resp
        (t1 ++ t2 ++ t3,
          match r3 with
          | .ok res => res
          | .error e => e.intoResponse)

end MiddlewareFactory

/-- Models the blanket `Runner` impl applied to a `BoxedHandler`-shaped
closure with the `String` deserializer and `String` serializer (src/handler.rs
lines 161-180 with lines 105-116, 122-130, 236-253): `String::deserialize` and
`String::serialize` are `Ok`-returning identities on the body, so
`call_runner` is the closure itself with its response wrapped in `Ok`. -/
def handlerAsRunner (h : Handler) : RunnerT :=
  fun req => let (t, resp) := h req; (t, .ok resp)

/-- Models `encapsulate_runner`/`call_runner` (src/handler.rs lines 255-281):
the boxed closure runs the runner and renders an `Err` outcome into a response
via `From<Error> for Response<String>`. -/
def runnerToHandler (r : RunnerT) : Handler :=
  fun req =>
    let (t, res) := r req
    match res with
    | .ok resp => (t, resp)
    | .error e => (t, e.intoResponse)

/-- Models `is_parameter_declaration` (src/handle_selector.rs lines 25-27):
`value.starts_with('\x7b') && value.ends_with('\x7d')` — the segment's first
character is an opening brace and its last character is a closing brace. -/
def is_parameter_declaration (value : String) : Bool :=
  value.toList.head? = some '\x7b' && value.toList.getLast? = some '\x7d'

/-- The pieces of `path.split('/')` (Rust `str::split` with a `char` pattern):
the substrings between consecutive slashes, including empty pieces at the
ends and around doubled slashes. -/
def splitSlashes : List Char → List Char → List String
  | [], acc => [String.mk acc.reverse]
  | c :: rest, acc =>
    if c = '/' then String.mk acc.reverse :: splitSlashes rest []
    else splitSlashes rest (c :: acc)

/-- Models `path.split('/').filter(|x| !x.is_empty())` used by both `insert`
(src/handle_selector.rs lines 133-136) and `get` (lines 154-157). -/
def splitPath (path : String) : List String :=
  (splitSlashes path.toList []).filter (fun s => s ≠ "")

/-- Models `Node` (src/handle_selector.rs lines 13-18): an optional map from
literal segment to child, an optional wildcard child, an optional handler.
The value type is a parameter; the trie code never inspects the stored
`BoxedHandler`, and the router instantiates `α := Handler`. -/
inductive TrieNode (α : Type u) : Type u where
  | mk (childrens : Option (List (String × TrieNode α)))
       (wildcard_node : Option (TrieNode α))
       (value : Option α) : TrieNode α

namespace TrieNode

/-- The `childrens` field. -/
def childrens : TrieNode α → Option (List (String × TrieNode α))
  | .mk c _ _ => c

/-- The `wildcard_node` field. -/
def wildcard : TrieNode α → Option (TrieNode α)
  | .mk _ w _ => w

/-- The `value` field. -/
def value : TrieNode α → Option α
  | .mk _ _ v => v

/-- Models `Node::default()`: all three fields `None`. -/
def empty : TrieNode α := .mk none none none

/-- Key lookup in the `childrens` hash map (`contains_key`/`get`).  The map is
modelled as an association list with pairwise distinct keys; hash iteration
order never affects lookup by key. -/
def findChild : List (String × TrieNode α) → String → Option (TrieNode α)
  | [], _ => none
  | (k, v) :: rest, s => if k = s then some v else findChild rest s

/-- Key update in the `childrens` hash map: `entry(path).or_insert(..)`
followed by the in-place mutation of the returned node is modelled as a
write-back of the updated child under its key. -/
def setChild : List (String × TrieNode α) → String → TrieNode α → List (String × TrieNode α)
  | [], s, v => [(s, v)]
  | (k, w) :: rest, s, v => if k = s then (s, v) :: rest else (k, w) :: setChild rest s v

/-- Models `HandlerSelect::insert` (src/handle_selector.rs lines 131-149) on
an already-split path.  Walks/creates nodes: a parameter-declaration segment
gets-or-creates the single wildcard child (`add_wildcard_node`, lines
190-204); any other segment gets-or-creates the literal child
(`add_normal_node`, lines 232-245).  At the terminal node,
`panic!("{} already defined")` when a handler is present is modelled as
`none`; otherwise the handler is stored. -/
def insertSegs : TrieNode α → List String → α → Option (TrieNode α)
  | n, [], v =>
    match n.value with
    | some _ => none
    | none => some (.mk n.childrens n.wildcard (some v))
  | n, s :: rest, v =>
    if is_parameter_declaration s then
      let child := n.wildcard.getD .empty
      (insertSegs child rest v).map fun c => .mk n.childrens (some c) n.value
    else
      let cs := n.childrens.getD []
      let child := (findChild cs s).getD .empty
      (insertSegs child rest v).map fun c => .mk (some (setChild cs s c)) n.wildcard n.value

/-- `HandlerSelect::insert` on a path string. -/
def insert (n : TrieNode α) (path : String) (v : α) : Option (TrieNode α) :=
  insertSegs n (splitPath path) v

/-- Models the traversal loop of `HandlerSelect::get` (src/handle_selector.rs
lines 151-186) on an already-split path: at each segment, match on the pair
(childrens, wildcard_node); a literal child matching the segment is followed
in preference to the wildcard child; the wildcard child is followed otherwise;
with neither, the lookup fails.  At the end the terminal node's handler is
returned. -/
def getSegs : TrieNode α → List String → Option α
  | n, [] => n.value
  | n, s :: rest =>
    match n.childrens, n.wildcard with
    | none, none => none
    | none, some w => getSegs w rest
    | some cs, none =>
      match findChild cs s with
      | some c => getSegs c rest
      | none => none
    | some cs, some w =>
      match findChild cs s with
      | some c => getSegs c rest
      | none => getSegs w rest

/-- `HandlerSelect::get` on a path string. -/
def get (n : TrieNode α) (path : String) : Option α :=
  getSegs n (splitPath path)

mutual

/-- Models `rec_extend` (src/handle_selector.rs lines 100-129) as the list of
(path, handler) pairs it inserts, in insertion order.  Mirrors the source
exactly: a handler-bearing node contributes its reconstructed path and
returns early (its children are not visited); the `(None, Some)` branch
appends `"/\x7bwildcard_node\x7d"` to the path; the `(Some, Some)` branch
visits the literal children first and then appends `"\x7bwildcard_node\x7d"`
— without a leading slash, as in the source — before recursing into the
wildcard child. -/
def collectNode : TrieNode α → String → List (String × α)
  | .mk _ _ (some v), path => [(path, v)]
  | .mk none none none, _ => []
  | .mk none (some w) none, path => collectNode w (path ++ "/\x7bwildcard_node\x7d")
  | .mk (some cs) none none, path => collectChildren cs path
  | .mk (some cs) (some w) none, path =>
    collectChildren cs path ++ collectNode w (path ++ "\x7bwildcard_node\x7d")

/-- The iteration over the `childrens` map inside `rec_extend`, appending
`"/" ++ segment` to the accumulated path for each child. -/
def collectChildren : List (String × TrieNode α) → String → List (String × α)
  | [], _ => []
  | (s, c) :: rest, path => collectNode c (path ++ "/" ++ s) ++ collectChildren rest path

end

/-- Models `HandlerSelect::extend` (src/handle_selector.rs lines 94-98):
re-insert every (path, handler) pair reconstructed by `rec_extend` from the
other trie's root (starting from the empty path) into `self`, in walk order.
A `panic!` in any of those inserts is modelled as `none`. -/
def extend (self other : TrieNode α) : Option (TrieNode α) :=
  (collectNode other "").foldlM (fun acc pv => insertSegs acc (splitPath pv.1) pv.2) self

mutual

/-- Models `rec_apply` (src/handle_selector.rs lines 52-92): replace every
stored handler in the trie by `g` of it (with `g` the per-node
`apply_middlewares` wrapping), preserving the trie shape. -/
def applyNode (g : α → α) : TrieNode α → TrieNode α
  | .mk cs w v =>
    .mk
      (match cs with
       | none => none
       | some l => some (applyChildren g l))
      (match w with
       | none => none
       | some x => some (applyNode g x))
      (match v with
       | none => none
       | some x => some (g x))

/-- The iteration over the `childrens` map inside `rec_apply`. -/
def applyChildren (g : α → α) : List (String × TrieNode α) → List (String × TrieNode α)
  | [] => []
  | (s, c) :: rest => (s, applyNode g c) :: applyChildren g rest

end

/-- The chain of fresh nodes `insert` builds below an empty node: a literal
segment becomes a one-entry child map, a parameter segment becomes the
wildcard child. -/
def freshChain : List String → α → TrieNode α
  | [], v => .mk none none (some v)
  | s :: rest, v =>
    if is_parameter_declaration s then .mk none (some (freshChain rest v)) none
    else .mk (some [(s, freshChain rest v)]) none none

/-- Two segment lists address the same trie node: pointwise, the segments are
either equal or both parameter declarations (all wildcard forms at one depth
collapse to the single wildcard child). -/
def patEquiv : List String → List String → Bool
  | [], [] => true
  | s :: r, s' :: r' =>
    (s = s' || (is_parameter_declaration s && is_parameter_declaration s')) && patEquiv r r'
  | _, _ => false

end TrieNode

/-- Models `Node::apply_middlewares` (src/handle_selector.rs lines 206-230)
on one stored handler: the `BoxedHandler` is used as a `Runner` through the
blanket impl with `String` codecs, wrapped by `middleware_factory.build`, and
the built closure is re-boxed through `encapsulate_runner`. -/
def applyMiddlewares (f : MiddlewareFactory) (h : Handler) : Handler :=
  runnerToHandler (handlerAsRunner (f.build (handlerAsRunner h)))

/-- Models `http::Method` restricted to the nine methods the router matches on
(src/router.rs lines 353-390); the `_ => unreachable!` arm is outside this
set. -/
inductive Method where
  | GET | PUT | DELETE | POST | TRACE | OPTIONS | CONNECT | PATCH | HEAD
deriving Repr, DecidableEq

/-- Models `Router` (src/router.rs lines 98-109): a middleware factory and
nine tries, one per HTTP method.  The trie type `RouterTree` is the
`HandlerSelect` trie of src/handle_selector.rs, whose `insert`, `get`,
`extend` and `apply` are the operations the router uses. -/
structure Router where
  middleware_factory : MiddlewareFactory
  get : TrieNode Handler
  put : TrieNode Handler
  delete : TrieNode Handler
  post : TrieNode Handler
  trace : TrieNode Handler
  options : TrieNode Handler
  connect : TrieNode Handler
  patch : TrieNode Handler
  head : TrieNode Handler

namespace Router

/-- Models `Router::new` (src/router.rs lines 111-134). -/
def new : Router :=
  { middleware_factory := MiddlewareFactory.new
    get := .empty, put := .empty, delete := .empty, post := .empty
    trace := .empty, options := .empty, connect := .empty, patch := .empty
    head := .empty }

/-- The trie owned by a router for a given method (the match arms of
`Router::method` and `find_route`). -/
def tree (r : Router) : Method → TrieNode Handler
  | .GET => r.get
  | .PUT => r.put
  | .DELETE => r.delete
  | .POST => r.post
  | .TRACE => r.trace
  | .OPTIONS => r.options
  | .CONNECT => r.connect
  | .PATCH => r.patch
  | .HEAD => r.head

/-- Replace the trie of one method, leaving the other eight untouched (the
per-arm `self.<method>.insert(..)` of `Router::method`). -/
def setTree (r : Router) : Method → TrieNode Handler → Router
  | .GET, t => { r with get := t }
  | .PUT, t => { r with put := t }
  | .DELETE, t => { r with delete := t }
  | .POST, t => { r with post := t }
  | .TRACE, t => { r with trace := t }
  | .OPTIONS, t => { r with options := t }
  | .CONNECT, t => { r with connect := t }
  | .PATCH, t => { r with patch := t }
  | .HEAD, t => { r with head := t }

/-- Models `Router::method` (src/router.rs lines 338-394): insert
`encapsulate_runner(handler, des, ser)` into the trie of the given method.
The `panic!` of a duplicate route propagates as `none`. -/
def method (r : Router) (m : Method) (path : String) (handler : RunnerT) : Option Router :=
  ((r.tree m).insert path (runnerToHandler handler)).map (r.setTree m)

/-- Models `Router::pre` (src/router.rs lines 270-294): a new factory with the
appended pre step; the tries are moved unchanged. -/
def pre (r : Router) (step : PreStep) : Router :=
  { r with middleware_factory := r.middleware_factory.addPre step }

/-- Models `Router::after` (src/router.rs lines 296-322). -/
def after (r : Router) (step : AfterStep) : Router :=
  { r with middleware_factory := r.middleware_factory.addAfter step }

/-- Models the `method_insert!` macro body (src/router.rs lines 136-179),
specialised by each of `Router::get`, `Router::put`, ..., `Router::head`:
wrap the user runner with the router's current middleware factory via
`build`, then insert it through `Router::method` with `String` codecs. -/
def methodInsert (r : Router) (m : Method) (path : String) (handler : RunnerT) : Option Router :=
  r.method m path (handlerAsRunner (r.middleware_factory.build handler))

/-- Models `Router::find_route` (src/router.rs lines 491-504). -/
def find_route (r : Router) (m : Method) (path : String) : Option Handler :=
  (r.tree m).get path

/-- Models `Router::router` (src/router.rs lines 225-266): each of the other
router's nine tries is wrapped by `self`'s middleware factory
(`HandlerSelect::apply`, i.e. `apply_middlewares` at every handler-bearing
node) and then merged into `self`'s corresponding trie via
`HandlerSelect::extend`.  A duplicate-route `panic!` during any of the nine
merges propagates as `none`. -/
def router (self other : Router) : Option Router := do
  let g := applyMiddlewares self.middleware_factory
  let getT ← self.get.extend (TrieNode.applyNode g other.get)
  let putT ← self.put.extend (TrieNode.applyNode g other.put)
  let deleteT ← self.delete.extend (TrieNode.applyNode g other.delete)
  let postT ← self.post.extend (TrieNode.applyNode g other.post)
  let traceT ← self.trace.extend (TrieNode.applyNode g other.trace)
  let optionsT ← self.options.extend (TrieNode.applyNode g other.options)
  let connectT ← self.connect.extend (TrieNode.applyNode g other.connect)
  let patchT ← self.patch.extend (TrieNode.applyNode g other.patch)
  let headT ← self.head.extend (TrieNode.applyNode g other.head)
  pure { self with
    get := getT, put := putT, delete := deleteT, post := postT
    trace := traceT, options := optionsT, connect := connectT, patch := patchT
    head := headT }

end Router

/-- Models the `Method` enum of the older `Server` variant in src/lib.rs,
which owns four tries. -/
inductive MethodL where
  | Get | Put | Delete | Post
deriving Repr, DecidableEq

/-- Models the older `Server` (src/lib.rs lines 8-14): four `HandlerSelect`
tries, one per supported method. -/
structure ServerL where
  get : TrieNode Handler
  put : TrieNode Handler
  delete : TrieNode Handler
  post : TrieNode Handler

namespace ServerL

/-- Models `Server::new` (src/lib.rs lines 17-24). -/
def new : ServerL := ⟨.empty, .empty, .empty, .empty⟩

/-- Models `Server::add_handler` (src/lib.rs lines 26-58): insert the
encapsulated runner into the trie matching the method. -/
def add_handler (s : ServerL) (m : MethodL) (path : String) (handler : RunnerT) :
    Option ServerL :=
  match m with
  | .Get => (s.get.insert path (runnerToHandler handler)).map fun t => { s with get := t }
  | .Put => (s.put.insert path (runnerToHandler handler)).map fun t => { s with put := t }
  | .Delete => (s.delete.insert path (runnerToHandler handler)).map fun t => { s with delete := t }
  | .Post => (s.post.insert path (runnerToHandler handler)).map fun t => { s with post := t }

/-- Models `Server::get` (src/lib.rs lines 60-74). -/
def getOp (s : ServerL) (path : String) (handler : RunnerT) : Option ServerL :=
  s.add_handler .Get path handler

/-- Models `Server::post` (src/lib.rs lines 76-90). -/
def postOp (s : ServerL) (path : String) (handler : RunnerT) : Option ServerL :=
  s.add_handler .Post path handler

/-- Models `Server::put` (src/lib.rs lines 92-106). -/
def putOp (s : ServerL) (path : String) (handler : RunnerT) : Option ServerL :=
  s.add_handler .Put path handler

/-- Models `Server::delete` (src/lib.rs lines 108-122).  The source forwards
to `add_handler` with `Method::Get`, exactly as written:
`self.add_handler(Method::Get, path, handler, deserializer, serializer)`. -/
def deleteOp (s : ServerL) (path : String) (handler : RunnerT) : Option ServerL :=
  s.add_handler .Get path handler

/-- Models `Server::find_handler` (src/lib.rs lines 174-181). -/
def find_handler (s : ServerL) (m : MethodL) (path : String) : Option Handler :=
  match m with
  | .Get => s.get.get path
  | .Put => s.put.get path
  | .Post => s.post.get path
  | .Delete => s.delete.get path

end ServerL

/-- Models `Json::<T>::deserialize` (src/deserializer.rs lines 28-40) over an
abstract external codec `parse` standing for `serde_json::from_str`: a codec
failure message `msg` becomes `Error::new(msg, 422)`. -/
def jsonDeserialize {τ : Type} (parse : String → Except String τ) (content : String) :
    InternalResult τ :=
  match parse content with
  | .ok v => .ok v
  | .error msg => .error ⟨msg, 422⟩

/-- Models the blanket `Runner::call_runner` impl (src/handler.rs lines
161-180) for a typed user computation: `FnIn::try_into` runs the selected
deserializer on the request; on `Err(serde_error)` the user computation is not
invoked and the error is returned; on `Ok` the user computation runs and its
output goes through `FnOut::try_into` (the serializer). -/
def callRunnerTyped {τ σ : Type} (tryIntoIn : YRequest → InternalResult τ)
    (user : τ → Trace × σ) (tryIntoOut : σ → InternalResult YResponse)
    (req : YRequest) : Trace × InternalResult YResponse :=
  match tryIntoIn req with
  | .ok x => let (t, out) := user x; (t, tryIntoOut out)
  | .error serdeError => ([], .error serdeError)

/-- The `RunnerInput` impl for a plain typed body with a `BodyDeserializer`
(src/handler.rs lines 92-103): deserialize the request's string body. -/
def runnerInputBody {τ : Type} (deserialize : String → InternalResult τ)
    (req : YRequest) : InternalResult τ :=
  deserialize req.body

/-- A pre middleware that always short-circuits with a fixed error, like
`pre_middleware_short_circuiting` in the src/middleware.rs tests. -/
def preFail (e : YError) : PreStep := fun _ => ([], .error e)

/-- An after middleware that always replaces the response with a fixed error,
like `after_middleware_short_circuiting` in the src/middleware.rs tests. -/
def afterFail (e : YError) : AfterStep := fun _ => ([], .error e)

/-- An after-error middleware that unconditionally maps any incoming error to
a fixed response and passes successes through, in the style of
`after_error_middleware` in the src/middleware.rs tests. -/
def recoverTo (fixed : YResponse) : AfterErrorStep := fun res =>
  match res with
  | .error _ => ([], .ok fixed)
  | .ok r => ([], .ok r)

/-- An instrumented pre middleware: emits one effect label and passes the
request through unchanged. -/
def preTag (l : String) : PreStep := fun req => ([l], .ok req)

/-- An instrumented after middleware: emits one effect label and passes the
response through unchanged. -/
def afterTag (l : String) : AfterStep := fun res => ([l], .ok res)

/-- An instrumented user computation: emits one effect label and returns a
fixed successful response body. -/
def handlerTag (l : String) (body : String) : RunnerT :=
  fun _ => ([l], .ok (YResponse.new body))

/-- A plain user computation echoing the request body, with no effects. -/
def defaultRunner : RunnerT := fun req => ([], .ok (YResponse.new req.body))

namespace TrieNode

theorem childrens_mk (cs : Option (List (String × TrieNode α))) (w : Option (TrieNode α))
    (v : Option α) : (TrieNode.mk cs w v).childrens = cs := rfl

theorem wildcard_mk (cs : Option (List (String × TrieNode α))) (w : Option (TrieNode α))
    (v : Option α) : (TrieNode.mk cs w v).wildcard = w := rfl

theorem value_mk (cs : Option (List (String × TrieNode α))) (w : Option (TrieNode α))
    (v : Option α) : (TrieNode.mk cs w v).value = v := rfl

theorem findChild_setChild_self (l : List (String × TrieNode α)) (s : String) (c : TrieNode α) :
    findChild (setChild l s c) s = some c := by
  induction l with
  | nil => simp [setChild, findChild]
  | cons kv rest ih =>
    obtain ⟨k, w⟩ := kv
    by_cases h : k = s
    · simp [setChild, findChild, h]
    · simp [setChild, findChild, h, ih]

theorem findChild_setChild_ne (l : List (String × TrieNode α)) (s k : String) (c : TrieNode α)
    (h : k ≠ s) : findChild (setChild l s c) k = findChild l k := by
  induction l with
  | nil => simp [setChild, findChild, Ne.symm h]
  | cons kv rest ih =>
    obtain ⟨k', w⟩ := kv
    by_cases h' : k' = s
    · subst h'
      simp [setChild, findChild, Ne.symm h]
    · simp only [setChild, if_neg h']
      by_cases h'' : k' = k
      · simp [findChild, h'']
      · simp [findChild, h'', ih]

theorem insertSegs_empty (segs : List String) (v : α) :
    insertSegs empty segs v = some (freshChain segs v) := by
  induction segs with
  | nil => rfl
  | cons s rest ih =>
    by_cases h : is_parameter_declaration s
    · simp [insertSegs, freshChain, h, empty, wildcard, childrens, value, ih]
      exact ih
    · simp only [insertSegs, h, Bool.false_eq_true, if_false, empty, childrens, wildcard,
        value, findChild, Option.getD_none, Option.getD_some]
      have ih' : (mk none none none : TrieNode α).insertSegs rest v = some (freshChain rest v) := ih
      simp [ih', freshChain, h, setChild]

/-- After a successful insert of a literal-only segment list, looking the same
segments up returns the inserted value — over any starting trie. -/
theorem getSegs_insertSegs_literal (segs : List String) :
    ∀ (t t' : TrieNode α) (v : α),
      (∀ s ∈ segs, is_parameter_declaration s = false) →
      insertSegs t segs v = some t' → getSegs t' segs = some v := by
  induction segs with
  | nil =>
    intro t t' v _ h
    match ht : t.value with
    | some x => simp [insertSegs, ht] at h
    | none =>
      simp [insertSegs, ht] at h
      simp [← h, getSegs, value]
  | cons s rest ih =>
    intro t t' v hlit h
    have hs : is_parameter_declaration s = false := hlit s (List.mem_cons_self s rest)
    simp only [insertSegs, hs, Bool.false_eq_true, if_false, Option.map_eq_some'] at h
    obtain ⟨c, hc, rfl⟩ := h
    have hrest : ∀ s' ∈ rest, is_parameter_declaration s' = false :=
      fun s' hs' => hlit s' (List.mem_cons_of_mem s hs')
    have hget := ih _ _ _ hrest hc
    match hw : t.wildcard with
    | none => simp [getSegs, childrens, wildcard, findChild_setChild_self, hget]
    | some w => simp [getSegs, childrens, wildcard, findChild_setChild_self, hget]

/-- Lookup in the chain produced by inserting a literal-only path into an
empty trie hits exactly that path. -/
theorem getSegs_freshChain (segs : List String) :
    ∀ (v : α) (segs' : List String),
      (∀ s ∈ segs, is_parameter_declaration s = false) →
      getSegs (freshChain segs v) segs' = if segs' = segs then some v else none := by
  induction segs with
  | nil =>
    intro v segs' _
    match segs' with
    | [] => simp [freshChain, getSegs, value]
    | s' :: r' => simp [freshChain, getSegs, childrens, wildcard]
  | cons s rest ih =>
    intro v segs' hlit
    have hs : is_parameter_declaration s = false := hlit s (List.mem_cons_self s rest)
    have hrest : ∀ s' ∈ rest, is_parameter_declaration s' = false :=
      fun s' hs' => hlit s' (List.mem_cons_of_mem s hs')
    match segs' with
    | [] => simp [freshChain, hs, getSegs, value]
    | s' :: r' =>
      by_cases hss : s = s'
      · subst hss
        simp [freshChain, hs, getSegs, childrens, wildcard, findChild, ih v r' hrest]
      · have hne : ¬(s' = s ∧ r' = rest) := fun hc => hss hc.1.symm
        simp [freshChain, hs, getSegs, childrens, wildcard, findChild, hss, hne]

/-- Inserting a second, distinct literal-only path into the singleton trie
produced by a first insert succeeds, and both routes are then resolvable. -/
theorem insertSegs_freshChain_ne (segs : List String) :
    ∀ (v v2 : α) (segs2 : List String),
      (∀ s ∈ segs, is_parameter_declaration s = false) →
      (∀ s ∈ segs2, is_parameter_declaration s = false) →
      segs2 ≠ segs →
      ∃ t2, insertSegs (freshChain segs v) segs2 v2 = some t2 ∧
        getSegs t2 segs = some v ∧ getSegs t2 segs2 = some v2 := by
  induction segs with
  | nil =>
    intro v v2 segs2 _ hlit2 hne
    match segs2, hne with
    | s :: r, _ =>
      have hs : is_parameter_declaration s = false := hlit2 s (List.mem_cons_self s r)
      have hr : ∀ s' ∈ r, is_parameter_declaration s' = false :=
        fun s' hs' => hlit2 s' (List.mem_cons_of_mem s hs')
      refine ⟨.mk (some [(s, freshChain r v2)]) none (some v), ?_, ?_, ?_⟩
      · simp [freshChain, insertSegs, hs, childrens, wildcard, value, findChild,
          insertSegs_empty, setChild]
      · simp [getSegs, value]
      · simp [getSegs, childrens, wildcard, findChild, getSegs_freshChain r v2 r hr]
  | cons s rest ih =>
    intro v v2 segs2 hlit hlit2 hne
    have hs : is_parameter_declaration s = false := hlit s (List.mem_cons_self s rest)
    have hrest : ∀ s' ∈ rest, is_parameter_declaration s' = false :=
      fun s' hs' => hlit s' (List.mem_cons_of_mem s hs')
    match segs2 with
    | [] =>
      refine ⟨.mk (some [(s, freshChain rest v)]) none (some v2), ?_, ?_, ?_⟩
      · simp [freshChain, hs, insertSegs, value, childrens_mk, wildcard_mk]
      · simp [getSegs, childrens, wildcard, findChild, getSegs_freshChain rest v rest hrest]
      · simp [getSegs, value]
    | s' :: r' =>
      have hs' : is_parameter_declaration s' = false := hlit2 s' (List.mem_cons_self s' r')
      have hr' : ∀ x ∈ r', is_parameter_declaration x = false :=
        fun x hx => hlit2 x (List.mem_cons_of_mem s' hx)
      by_cases hss : s' = s
      · subst hss
        have hner : r' ≠ rest := fun hc => hne (by rw [hc])
        obtain ⟨c2, hc2, hcg, hcg2⟩ := ih v v2 r' hrest hr' hner
        refine ⟨.mk (some [(s', c2)]) none none, ?_, ?_, ?_⟩
        · simp [freshChain, hs, insertSegs, hs', childrens, wildcard, value, findChild,
            hc2, setChild]
        · simp [getSegs, childrens, wildcard, findChild, hcg]
        · simp [getSegs, childrens, wildcard, findChild, hcg2]
      · refine ⟨.mk (some [(s, freshChain rest v), (s', freshChain r' v2)]) none none, ?_, ?_, ?_⟩
        · simp [freshChain, hs, insertSegs, hs', childrens, wildcard, value, findChild,
            Ne.symm hss, insertSegs_empty, setChild, hss]
        · simp [getSegs, childrens, wildcard, findChild,
            getSegs_freshChain rest v rest hrest]
        · simp [getSegs, childrens, wildcard, findChild, hss, Ne.symm hss,
            getSegs_freshChain r' v2 r' hr']

theorem patEquiv_refl (segs : List String) : patEquiv segs segs = true := by
  induction segs with
  | nil => rfl
  | cons s r ih => simp [patEquiv, ih]

/-- After a successful insert, inserting again along any equivalent segment
list reaches a node that already holds a handler, so the second insert
panics (`none`). -/
theorem insertSegs_insertSegs_equiv (segs : List String) :
    ∀ (segs' : List String) (t t1 : TrieNode α) (v v' : α),
      patEquiv segs segs' = true →
      insertSegs t segs v = some t1 →
      insertSegs t1 segs' v' = none := by
  induction segs with
  | nil =>
    intro segs' t t1 v v' heq hins
    match segs' with
    | [] =>
      match ht : t.value with
      | some x => simp [insertSegs, ht] at hins
      | none =>
        simp [insertSegs, ht] at hins
        simp [← hins, insertSegs, value]
    | s' :: r' => simp [patEquiv] at heq
  | cons s r ih =>
    intro segs' t t1 v v' heq hins
    match segs' with
    | [] => simp [patEquiv] at heq
    | s' :: r' =>
      simp only [patEquiv, Bool.and_eq_true, Bool.or_eq_true, decide_eq_true_eq] at heq
      obtain ⟨hhead, htail⟩ := heq
      by_cases hp : is_parameter_declaration s
      · have hp' : is_parameter_declaration s' = true := by
          rcases hhead with h | ⟨h1, h2⟩
          · rw [← h]; exact hp
          · exact h2
        simp only [insertSegs, hp, if_true, Option.map_eq_some'] at hins
        obtain ⟨c, hc, rfl⟩ := hins
        simp only [insertSegs, hp', if_true, wildcard_mk, Option.getD_some]
        rw [ih r' _ _ _ _ htail hc]
        rfl
      · have hs' : s = s' := by
          rcases hhead with h | ⟨h1, h2⟩
          · exact h
          · exact absurd h1 hp
        subst hs'
        have hpf : is_parameter_declaration s = false := by
          simpa using hp
        simp only [insertSegs, hpf, Bool.false_eq_true, if_false, Option.map_eq_some'] at hins
        obtain ⟨c, hc, rfl⟩ := hins
        simp only [insertSegs, hpf, Bool.false_eq_true, if_false, childrens_mk,
          Option.getD_some, findChild_setChild_self]
        rw [ih r' _ _ _ _ htail hc]
        rfl

end TrieNode

/-- C1, counterexample.  The claim says the combined after function is applied
to the outcome in every case, so that an after-step mapping any incoming error
to the fixed response `200/"fixed"` makes the final response equal that fixed
response even when the error originated in pre.  On the code, a pre-step that
short-circuits with `403/"blocked"` under exactly such a recovering
after-error step yields the rendered pre error, not the fixed response: the
`?` in `MiddlewareFactory::build` skips the combined after entirely. -/
theorem c1_after_always_runs_counterexample :
    (((MiddlewareFactory.new.addPre (preFail ⟨"blocked", 403⟩)).addAfterError
        (recoverTo (YResponse.mk 200 "fixed"))).build defaultRunner ⟨"r"⟩).2
      = YResponse.mk 403 "blocked" ∧
    (((MiddlewareFactory.new.addPre (preFail ⟨"blocked", 403⟩)).addAfterError
        (recoverTo (YResponse.mk 200 "fixed"))).build defaultRunner ⟨"r"⟩).2
      ≠ YResponse.mk 200 "fixed" := by
  constructor
  · rfl
  · decide

/-- C1, amended.  For a runner built by `MiddlewareFactory::build`, the
combined after function is applied only when both the combined pre and the
wrapped runner succeed; an error from pre or from the runner bypasses the
after stage and is rendered directly into the client-visible response via
`From<Error> for Response<String>`.  Consequently an after-error step that
unconditionally maps any incoming error to a fixed response produces that
fixed response exactly when the error originated in an earlier after-step —
not when it originated in pre or in the handler. -/
theorem c1_after_recovery_scope (f : MiddlewareFactory) (r : RunnerT) (req : YRequest)
    (fixed : YResponse) :
    (∀ t e, f.pre req = (t, .error e) →
      ((f.addAfterError (recoverTo fixed)).build r) req = (t, e.intoResponse)) ∧
    (∀ t q t2 e, f.pre req = (t, .ok q) → r q = (t2, .error e) →
      ((f.addAfterError (recoverTo fixed)).build r) req = (t ++ t2, e.intoResponse)) ∧
    (∀ t q t2 resp t3 e3, f.pre req = (t, .ok q) → r q = (t2, .ok resp) →
      f.after resp = (t3, .error e3) →
      (((f.addAfterError (recoverTo fixed)).build r) req).2 = fixed) ∧
    (∀ t q t2 resp t3 resp3, f.pre req = (t, .ok q) → r q = (t2, .ok resp) →
      f.after resp = (t3, .ok resp3) →
      (((f.addAfterError (recoverTo fixed)).build r) req).2 = resp3) := by
  refine ⟨?_, ?_, ?_, ?_⟩
  · intro t e h
    simp [MiddlewareFactory.build, MiddlewareFactory.addAfterError, h]
  · intro t q t2 e hpre hrun
    simp [MiddlewareFactory.build, MiddlewareFactory.addAfterError, hpre, hrun]
  · intro t q t2 resp t3 e3 hpre hrun hafter
    simp [MiddlewareFactory.build, MiddlewareFactory.addAfterError, recoverTo,
      hpre, hrun, hafter]
  · intro t q t2 resp t3 resp3 hpre hrun hafter
    simp [MiddlewareFactory.build, MiddlewareFactory.addAfterError, recoverTo,
      hpre, hrun, hafter]

/-- C1, witness: the amended theorem applied at concrete inputs — a pre-step
erroring with `403/"blocked"` bypasses the recovering after-error step, while
an error introduced by an earlier after-step is recovered to the fixed
response. -/
theorem c1_after_recovery_scope_witness :
    (((MiddlewareFactory.new.addPre (preFail ⟨"blocked", 403⟩)).addAfterError
        (recoverTo (YResponse.mk 200 "fixed"))).build defaultRunner ⟨"r"⟩)
      = ([], YError.intoResponse ⟨"blocked", 403⟩) ∧
    (((MiddlewareFactory.new.addAfter (afterFail ⟨"late", 500⟩)).addAfterError
        (recoverTo (YResponse.mk 200 "fixed"))).build defaultRunner ⟨"r"⟩).2
      = YResponse.mk 200 "fixed" := by
  constructor
  · exact (c1_after_recovery_scope (MiddlewareFactory.new.addPre (preFail ⟨"blocked", 403⟩))
      defaultRunner ⟨"r"⟩ (YResponse.mk 200 "fixed")).1 [] ⟨"blocked", 403⟩ rfl
  · exact (c1_after_recovery_scope (MiddlewareFactory.new.addAfter (afterFail ⟨"late", 500⟩))
      defaultRunner ⟨"r"⟩ (YResponse.mk 200 "fixed")).2.2.1 [] ⟨"r"⟩ []
      (YResponse.new "r") [] ⟨"late", 500⟩ rfl rfl rfl

/-- C2: at each depth of lookup where the node has both a literal child whose
key equals the current segment and a wildcard child, `get` follows the literal
child; the wildcard child is followed only when no literal child matches; in
particular, with sibling literal child "users" and a wildcard child, looking
up "/users" returns the handler stored under the literal child (the wildcard
handler, stored under a distinct value, answers only non-matching paths such
as "/other"). -/
theorem c2_literal_preferred_over_wildcard :
    (∀ (α : Type) (cs : List (String × TrieNode α)) (w : TrieNode α) (v : Option α)
        (s : String) (rest : List String) (c : TrieNode α),
      TrieNode.findChild cs s = some c →
      TrieNode.getSegs (TrieNode.mk (some cs) (some w) v) (s :: rest) =
        TrieNode.getSegs c rest) ∧
    (∀ (α : Type) (cs : List (String × TrieNode α)) (w : TrieNode α) (v : Option α)
        (s : String) (rest : List String),
      TrieNode.findChild cs s = none →
      TrieNode.getSegs (TrieNode.mk (some cs) (some w) v) (s :: rest) =
        TrieNode.getSegs w rest) ∧
    Option.map (fun t => (TrieNode.get t "/users", TrieNode.get t "/other"))
      (Option.bind (TrieNode.insert (TrieNode.empty : TrieNode Nat) "/users" 0)
        (fun t => t.insert "/\x7bid\x7d" 1)) = some (some 0, some 1) := by
  refine ⟨?_, ?_, by decide⟩
  · intro α cs w v s rest c h
    simp [TrieNode.getSegs, TrieNode.childrens, TrieNode.wildcard, h]
  · intro α cs w v s rest h
    simp [TrieNode.getSegs, TrieNode.childrens, TrieNode.wildcard, h]

/-- C2, witness: the general tie-break applied at a concrete node with both a
matching literal child "users" (holding handler 0) and a wildcard child
(holding handler 1). -/
theorem c2_literal_preferred_over_wildcard_witness :
    TrieNode.getSegs
      (TrieNode.mk (some [("users", TrieNode.mk none none (some (0 : Nat)))])
        (some (TrieNode.mk none none (some 1))) none) ["users"]
      = TrieNode.getSegs (TrieNode.mk none none (some (0 : Nat))) [] :=
  (c2_literal_preferred_over_wildcard).1 Nat
    [("users", TrieNode.mk none none (some 0))]
    (TrieNode.mk none none (some 1)) none "users" []
    (TrieNode.mk none none (some 0)) rfl

/-- C3: for every trie and literal-only path P, after a successful
`insert(P, H)` the lookup of P returns H; and in the trie holding exactly the
route P (inserted into the empty trie, so that no wildcard route was
inserted), the lookup of any path splitting differently from P returns
`None`; a wildcard route, by contrast, can cover such a differing path (e.g.
with routes "/users" and a wildcard sibling, "/other" resolves to the
wildcard handler). -/
theorem c3_insert_lookup_roundtrip :
    (∀ (α : Type) (t t' : TrieNode α) (P : String) (v : α),
      (∀ s ∈ splitPath P, is_parameter_declaration s = false) →
      TrieNode.insert t P v = some t' → TrieNode.get t' P = some v) ∧
    (∀ (α : Type) (t' : TrieNode α) (P P' : String) (v : α),
      (∀ s ∈ splitPath P, is_parameter_declaration s = false) →
      TrieNode.insert TrieNode.empty P v = some t' →
      splitPath P' ≠ splitPath P → TrieNode.get t' P' = none) ∧
    Option.map (fun t => TrieNode.get t "/other")
      (Option.bind (TrieNode.insert (TrieNode.empty : TrieNode Nat) "/users" 0)
        (fun t => t.insert "/\x7bid\x7d" 1)) = some (some 1) := by
  refine ⟨?_, ?_, by decide⟩
  · intro α t t' P v hlit h
    exact TrieNode.getSegs_insertSegs_literal (splitPath P) t t' v hlit h
  · intro α t' P P' v hlit h hne
    unfold TrieNode.insert at h
    rw [TrieNode.insertSegs_empty] at h
    cases h
    unfold TrieNode.get
    rw [TrieNode.getSegs_freshChain (splitPath P) v (splitPath P') hlit, if_neg hne]

/-- C3, witness: the roundtrip and the miss applied at concrete inputs —
insert "/a/b" into the empty trie, look up "/a/b" (hit) and "/a/c" (miss). -/
theorem c3_insert_lookup_roundtrip_witness :
    (Option.map (fun t => TrieNode.get t "/a/b")
      (TrieNode.insert (TrieNode.empty : TrieNode Nat) "/a/b" 7) = some (some 7)) ∧
    (Option.map (fun t => TrieNode.get t "/a/c")
      (TrieNode.insert (TrieNode.empty : TrieNode Nat) "/a/b" 7) = some (none)) := by
  have h : TrieNode.insert (TrieNode.empty : TrieNode Nat) "/a/b" 7
      = some (TrieNode.freshChain ["a", "b"] 7) := rfl
  constructor
  · rw [h]
    have := (c3_insert_lookup_roundtrip).1 Nat TrieNode.empty
      (TrieNode.freshChain ["a", "b"] 7) "/a/b" 7 (by decide) h
    simp [this]
  · rw [h]
    have := (c3_insert_lookup_roundtrip).2.1 Nat
      (TrieNode.freshChain ["a", "b"] 7) "/a/b" "/a/c" 7 (by decide) h (by decide)
    simp [this]

/-- C4: if the combined pre step errors with `403/"blocked"` on a request,
the wrapped runner is never invoked — the built runner's outcome is the same
for every runner, and its effect trace is exactly the pre stage's own trace,
so no handler effect occurs — and the client-visible response carries status
403 and body "blocked". -/
theorem c4_pre_error_skips_runner (f : MiddlewareFactory) (req : YRequest) (t : Trace)
    (h : f.pre req = (t, .error ⟨"blocked", 403⟩)) :
    ∀ r r' : RunnerT,
      (f.build r) req = (f.build r') req ∧
      (f.build r) req = (t, YResponse.mk 403 "blocked") := by
  intro r r'
  constructor
  · simp [MiddlewareFactory.build, h]
  · simp [MiddlewareFactory.build, h, YError.intoResponse]

/-- C4, witness: a factory whose pre always fails with `403/"blocked"`,
applied to two different runners (one effectful, one erroring): the outcome is
the rendered pre error with no runner effects either way. -/
theorem c4_pre_error_skips_runner_witness :
    ((MiddlewareFactory.new.addPre (preFail ⟨"blocked", 403⟩)).build
        (handlerTag "sideEffect" "body") ⟨"r"⟩
      = (MiddlewareFactory.new.addPre (preFail ⟨"blocked", 403⟩)).build
        defaultRunner ⟨"r"⟩) ∧
    ((MiddlewareFactory.new.addPre (preFail ⟨"blocked", 403⟩)).build
        (handlerTag "sideEffect" "body") ⟨"r"⟩
      = ([], YResponse.mk 403 "blocked")) :=
  c4_pre_error_skips_runner (MiddlewareFactory.new.addPre (preFail ⟨"blocked", 403⟩))
    ⟨"r"⟩ [] rfl (handlerTag "sideEffect" "body") defaultRunner

/-- C5, behavior of `extend` at the failing inputs.  First input: `other`
holds routes "/a" (handler 0) and "/a/b" (handler 1); after extending the
empty trie with `other`, "/a/b" no longer resolves — `rec_extend` returns as
soon as it meets the handler-bearing node "/a" and never walks its children —
while "/a" survives.  Second input: `other` holds "/a/x" (handler 0) and the
wildcard route "/a/\x7bid\x7d" (handler 1); after the merge, "/a/q" (covered
by the wildcard in `other`) no longer resolves, because the `(Some, Some)`
branch of `rec_extend` re-emits the wildcard as "a\x7bwildcard_node\x7d"
appended with no '/' separator, turning it into a literal root segment — the
literal path "/a\x7bwildcard_node\x7d" resolves to that misplaced handler. -/
theorem c5_extend_loses_routes :
    (Option.map
      (fun other => (TrieNode.get other "/a/b",
        Option.map (fun m => (TrieNode.get m "/a/b", TrieNode.get m "/a"))
          (TrieNode.extend TrieNode.empty other)))
      (Option.bind (TrieNode.insert (TrieNode.empty : TrieNode Nat) "/a" 0)
        (fun t => t.insert "/a/b" 1))
      = some (some 1, some (none, some 0))) ∧
    (Option.map
      (fun o2 => (TrieNode.get o2 "/a/q",
        Option.map (fun m => (TrieNode.get m "/a/q",
            TrieNode.get m "/a\x7bwildcard_node\x7d", TrieNode.get m "/a/x"))
          (TrieNode.extend TrieNode.empty o2)))
      (Option.bind (TrieNode.insert (TrieNode.empty : TrieNode Nat) "/a/x" 0)
        (fun t => t.insert "/a/\x7bid\x7d" 1))
      = some (some 1, some (none, some 1, some 0))) := by
  constructor
  · rfl
  · rfl

/-- C6: with parent middleware pre `a` / after `a2` and child middleware pre
`b` / after `b2`, after registering "/a" on the parent and "/b" on the child
and merging with `Router::router`, a request to the merged child route "/b"
observes effects in the order parent-pre, child-pre, handler, child-after,
parent-after, and a request to the parent-only route "/a" observes only the
parent's pre and after around its own handler — never the child's. -/
theorem c6_router_merge_ordering (a a2 b b2 hA hB : String) (req : YRequest) :
    (do
      let parent ← ((Router.new.pre (preTag a)).after (afterTag a2)).methodInsert
        .GET "/a" (handlerTag hA "A")
      let child ← ((Router.new.pre (preTag b)).after (afterTag b2)).methodInsert
        .GET "/b" (handlerTag hB "B")
      let merged ← parent.router child
      let hb ← merged.find_route .GET "/b"
      let ha ← merged.find_route .GET "/a"
      pure ((hb req).1, (ha req).1))
    = some ([a, b, hB, b2, a2], [a, hA, a2]) := rfl

/-- C7: inserting at a path whose terminal node already holds a handler
panics (modelled as `none`) — including along any path that is identical
except for wildcard parameter names, since all parameter-declaration forms at
one depth collapse to the single wildcard child — while inserting at a
distinct literal sibling path succeeds and leaves the first route
resolvable. -/
theorem c7_duplicate_insert_fatal :
    (∀ (α : Type) (t t1 : TrieNode α) (P1 P2 : String) (v v' : α),
      TrieNode.patEquiv (splitPath P1) (splitPath P2) = true →
      TrieNode.insert t P1 v = some t1 → TrieNode.insert t1 P2 v' = none) ∧
    (∀ (α : Type) (P1 P2 : String) (v1 v2 : α) (t1 : TrieNode α),
      (∀ s ∈ splitPath P1, is_parameter_declaration s = false) →
      (∀ s ∈ splitPath P2, is_parameter_declaration s = false) →
      splitPath P2 ≠ splitPath P1 →
      TrieNode.insert TrieNode.empty P1 v1 = some t1 →
      ∃ t2, TrieNode.insert t1 P2 v2 = some t2 ∧
        TrieNode.get t2 P1 = some v1 ∧ TrieNode.get t2 P2 = some v2) := by
  constructor
  · intro α t t1 P1 P2 v v' heq hins
    exact TrieNode.insertSegs_insertSegs_equiv (splitPath P1) (splitPath P2) t t1 v v' heq hins
  · intro α P1 P2 v1 v2 t1 hlit1 hlit2 hne hins
    unfold TrieNode.insert at hins
    rw [TrieNode.insertSegs_empty] at hins
    cases hins
    exact TrieNode.insertSegs_freshChain_ne (splitPath P1) v1 v2 (splitPath P2)
      hlit1 hlit2 hne

/-- C7, witness: inserting "/a/\x7bid\x7d" and then "/a/\x7bname\x7d"
(identical up to the wildcard parameter name) panics on the second insert,
while inserting "/a" and then the sibling "/b" succeeds with both routes
resolvable. -/
theorem c7_duplicate_insert_fatal_witness :
    (Option.bind (TrieNode.insert (TrieNode.empty : TrieNode Nat) "/a/\x7bid\x7d" 0)
      (fun t1 => t1.insert "/a/\x7bname\x7d" 1) = none) ∧
    (∃ t2, TrieNode.insert (TrieNode.freshChain ["a"] (0 : Nat)) "/b" 1 = some t2 ∧
      TrieNode.get t2 "/a" = some 0 ∧ TrieNode.get t2 "/b" = some 1) := by
  constructor
  · have h1 : TrieNode.insert (TrieNode.empty : TrieNode Nat) "/a/\x7bid\x7d" 0
        = some (TrieNode.freshChain ["a", "\x7bid\x7d"] 0) := rfl
    rw [h1, Option.some_bind]
    exact (c7_duplicate_insert_fatal).1 Nat TrieNode.empty
      (TrieNode.freshChain ["a", "\x7bid\x7d"] 0) "/a/\x7bid\x7d" "/a/\x7bname\x7d" 0 1
      (by decide) h1
  · have h1 : TrieNode.insert (TrieNode.empty : TrieNode Nat) "/a" 0
        = some (TrieNode.freshChain ["a"] 0) := rfl
    exact (c7_duplicate_insert_fatal).2 Nat "/a" "/b" 0 1
      (TrieNode.freshChain ["a"] 0) (by decide) (by decide) (by decide) h1

/-- C8: for a route using the JSON deserializer capability, if the underlying
codec rejects the request's string body with message `msg`, dispatch does not
invoke the user computation — the outcome is identical for every user
computation and carries no user effects — and produces the error
`Error::new(msg, 422)`: status 422, body equal to the codec's message. -/
theorem c8_deserialization_failure {τ σ : Type} (parse : String → Except String τ)
    (user : τ → Trace × σ) (tryIntoOut : σ → InternalResult YResponse)
    (req : YRequest) (msg : String) (h : parse req.body = .error msg) :
    (∀ user' : τ → Trace × σ,
      callRunnerTyped (runnerInputBody (jsonDeserialize parse)) user tryIntoOut req =
        callRunnerTyped (runnerInputBody (jsonDeserialize parse)) user' tryIntoOut req) ∧
    callRunnerTyped (runnerInputBody (jsonDeserialize parse)) user tryIntoOut req =
      ([], .error ⟨msg, 422⟩) := by
  constructor
  · intro user'
    simp [callRunnerTyped, runnerInputBody, jsonDeserialize, h]
  · simp [callRunnerTyped, runnerInputBody, jsonDeserialize, h]

/-- C8, witness: a codec that rejects every body with message "bad json",
under a user computation with an observable effect: dispatch returns
`Error("bad json", 422)` and matches the outcome under a different user
computation. -/
theorem c8_deserialization_failure_witness :
    (callRunnerTyped (runnerInputBody (jsonDeserialize
        (fun _ => (.error "bad json" : Except String Unit))))
      (fun _ => (["userEffect"], YResponse.new "done"))
      (fun r => .ok r) ⟨"not-json"⟩ =
      callRunnerTyped (runnerInputBody (jsonDeserialize
        (fun _ => (.error "bad json" : Except String Unit))))
      (fun _ => ([], YResponse.new "other"))
      (fun r => .ok r) ⟨"not-json"⟩) ∧
    callRunnerTyped (runnerInputBody (jsonDeserialize
        (fun _ => (.error "bad json" : Except String Unit))))
      (fun _ => (["userEffect"], YResponse.new "done"))
      (fun r => .ok r) ⟨"not-json"⟩ = ([], .error ⟨"bad json", 422⟩) := by
  have h := c8_deserialization_failure
    (fun _ => (.error "bad json" : Except String Unit))
    (fun _ => (["userEffect"], YResponse.new "done"))
    (fun r => .ok r) ⟨"not-json"⟩ "bad json" rfl
  exact ⟨h.1 (fun _ => ([], YResponse.new "other")), h.2⟩

/-- C9, behavior at the failing input.  On the four-trie `Server` of
src/lib.rs, `Server::delete` forwards to `add_handler` with `Method::Get`, so
registering a route through `delete` mutates the GET trie: afterwards a
DELETE lookup at the path finds nothing while a GET lookup finds the
handler. -/
theorem c9_lib_delete_mutates_get_trie :
    Option.map
      (fun s => ((s.find_handler .Delete "/x").isSome, (s.find_handler .Get "/x").isSome))
      (ServerL.new.deleteOp "/x" defaultRunner) = some (false, true) := rfl

/-- C10, counterexample.  The claim says any unrecovered error is converted
into a response whose status equals the error's code.  For an error whose
code is outside the valid HTTP range (here 1000), the `Response::builder`
call inside `From<Error> for Response<String>` fails and the built closure
produces the 500 fallback response instead, so the client-visible status is
500, not 1000. -/
theorem c10_error_rendering_counterexample :
    (((MiddlewareFactory.new.addPre (preFail ⟨"oops", 1000⟩)).build
        defaultRunner ⟨"r"⟩).2.status = 500) ∧
    (((MiddlewareFactory.new.addPre (preFail ⟨"oops", 1000⟩)).build
        defaultRunner ⟨"r"⟩).2 ≠ YResponse.mk 1000 "oops") := by
  constructor
  · rfl
  · decide

/-- C10, amended.  Every route function produced by `MiddlewareFactory::build`
returns a plain successful response for every input (its type is
request → trace × response, with no error component): an error left
unrecovered by the pipeline — whether from pre, the runner, or the after
stage — is converted inside the built closure into a response whose status
equals the error's code and whose body equals the error's message whenever
the code is a valid HTTP status (100–999; otherwise the 500 builder-fallback
response is produced).  Consequently, when a child's already-built route (a
plain `BoxedHandler`) is wrapped by a parent's pipeline, the parent's runner
stage always succeeds and the parent's after stage is applied to the child's
own plain response — never to an `Err` originating from the child. -/
theorem c10_build_renders_unrecovered_errors (f : MiddlewareFactory) (r : RunnerT)
    (req : YRequest) :
    (∀ t e, f.pre req = (t, .error e) → 100 ≤ e.code → e.code < 1000 →
      ((f.build r) req).2 = YResponse.mk e.code e.body) ∧
    (∀ t q t2 e, f.pre req = (t, .ok q) → r q = (t2, .error e) →
      100 ≤ e.code → e.code < 1000 →
      ((f.build r) req).2 = YResponse.mk e.code e.body) ∧
    (∀ t q t2 resp t3 e, f.pre req = (t, .ok q) → r q = (t2, .ok resp) →
      f.after resp = (t3, .error e) → 100 ≤ e.code → e.code < 1000 →
      ((f.build r) req).2 = YResponse.mk e.code e.body) ∧
    (∀ (child : Handler) t q, f.pre req = (t, .ok q) →
      (f.build (handlerAsRunner child)) req =
        (t ++ (child q).1 ++ (f.after (child q).2).1,
          match (f.after (child q).2).2 with
          | .ok res => res
          | .error e => e.intoResponse)) := by
  refine ⟨?_, ?_, ?_, ?_⟩
  · intro t e h h1 h2
    simp [MiddlewareFactory.build, h, YError.intoResponse, h1, h2]
  · intro t q t2 e hpre hrun h1 h2
    simp [MiddlewareFactory.build, hpre, hrun, YError.intoResponse, h1, h2]
  · intro t q t2 resp t3 e hpre hrun hafter h1 h2
    simp [MiddlewareFactory.build, hpre, hrun, hafter, YError.intoResponse, h1, h2]
  · intro child t q hpre
    simp [MiddlewareFactory.build, hpre, handlerAsRunner]

/-- C10, witness: the amended theorem applied at concrete inputs — a pre
error with the in-range code 418 is rendered as status 418 with its own body,
and wrapping a concrete child handler gives the parent's after stage the
child's plain response. -/
theorem c10_build_renders_unrecovered_errors_witness :
    (((MiddlewareFactory.new.addPre (preFail ⟨"teapot", 418⟩)).build
        defaultRunner ⟨"r"⟩).2 = YResponse.mk 418 "teapot") ∧
    ((MiddlewareFactory.new.build (handlerAsRunner
        (fun _ => (["child"], YResponse.new "child-body")))) ⟨"r"⟩
      = (["child"], YResponse.new "child-body")) := by
  constructor
  · exact (c10_build_renders_unrecovered_errors
      (MiddlewareFactory.new.addPre (preFail ⟨"teapot", 418⟩)) defaultRunner ⟨"r"⟩).1
      [] ⟨"teapot", 418⟩ rfl (by norm_num) (by norm_num)
  · exact (c10_build_renders_unrecovered_errors MiddlewareFactory.new
      (handlerAsRunner (fun _ => (["child"], YResponse.new "child-body"))) ⟨"r"⟩).2.2.2
      (fun _ => (["child"], YResponse.new "child-body")) [] ⟨"r"⟩ rfl
